import Mathlib

/-!
Verification development for the S2A prototype (src/s2a_prototype/app.py):
a shallow embedding of the triple store view used by `recommend` and of the
constraint-based recommender itself, followed by theorems settling the
specification claims about it.

Modelling conventions.  rdflib's in-memory store iterates its dict-based
indices in insertion order; the store is therefore embedded as the list of
its triples in insertion order.  Python `set` objects built in `recommend`
iterate in an unspecified hash-based order; this embedding fixes that order
to first-occurrence order.  Machine integers are `Int` (Python ints are
unbounded).  Every Python f-string rendered by the recommender is rebuilt
here character for character.
-/

namespace S2A

/-- An RDF term in object position: an IRI node, an integer literal, or a
string literal — the vocabulary `build_graph_from_csv` produces. -/
inductive Obj where
  | node (id : String)
  | int (v : Int)
  | str (v : String)
deriving DecidableEq

/-- One (subject, predicate, object) edge of the knowledge graph. -/
structure Triple where
  subj : String
  pred : String
  obj : Obj
deriving DecidableEq

/-- The triple store: the list of triples in insertion order. -/
structure Graph where
  triples : List Triple
deriving DecidableEq

/-- Deduplication worker: drop elements already seen, keep the first
occurrence of each new one. -/
def dedupSeen {α : Type} [DecidableEq α] (seen : List α) : List α → List α
  | [] => []
  | a :: l => if a ∈ seen then dedupSeen seen l else a :: dedupSeen (a :: seen) l

/-- Deduplication keeping the first occurrence of each element — the order
in which rdflib index iteration yields distinct terms. -/
def dedupF {α : Type} [DecidableEq α] (l : List α) : List α :=
  dedupSeen [] l

/-- Embedding of `set(g.objects(s, p))`: the distinct objects of all
triples with the given subject and predicate. -/
def objects (g : Graph) (s p : String) : List Obj :=
  dedupF ((g.triples.filter (fun t => t.subj = s ∧ t.pred = p)).map Triple.obj)

/-- Embedding of `g.objects(c, p)` for a subject that is an arbitrary term:
with a literal subject rdflib finds nothing. -/
def objectsO (g : Graph) (s : Obj) (p : String) : List Obj :=
  match s with
  | .node id => objects g id p
  | _ => []

/-- Embedding of `g.subjects(RDF.type, cls)`. -/
def subjectsOfType (g : Graph) (cls : String) : List String :=
  dedupF ((g.triples.filter (fun t => t.pred = "rdf:type" ∧ t.obj = Obj.node cls)).map Triple.subj)

/-- Embedding of `g.value(s, p)`: the first match of the index iteration. -/
def value (g : Graph) (s p : String) : Option Obj :=
  (g.triples.find? (fun t => t.subj = s ∧ t.pred = p)).map Triple.obj

/-- Python `str(term)`: a URIRef prints its IRI, a literal its lexical form. -/
def objToStr : Obj → String
  | .node id => id
  | .int v => toString v
  | .str v => v

/-- Python `str(node).split("#")[-1]`: the last `#`-separated segment,
i.e. the suffix after the last `#` (the whole string when no `#` occurs). -/
def localAfterHash (s : String) : String :=
  String.mk ((s.data.reverse.takeWhile (fun c => c ≠ '#')).reverse)

/-- Embedding of `iri_to_label`: the stored `label` when present and truthy
(Python truthiness: a Literal is a str subclass, so the empty lexical form
is falsy), else the fragment after the final `#` of the IRI. -/
def iriToLabel (g : Graph) (n : String) : String :=
  match value g n "label" with
  | some o => if objToStr o = "" then localAfterHash n else objToStr o
  | none => localAfterHash n

/-- The `iri_to_label` call on an arbitrary term: `g.value` with a literal
subject finds nothing, so literals take the string-splitting fallback. -/
def labelOfObj (g : Graph) (o : Obj) : String :=
  match o with
  | .node id => iriToLabel g id
  | x => localAfterHash (objToStr x)

/-- Embedding of `_get_int`: `int(v)` of the stored value.  A stored string
literal parses as Python `int` would; other shapes (never produced by the
CSV ingestion for integer predicates) map to `none`. -/
def getIntProp (g : Graph) (s p : String) : Option Int :=
  match value g s p with
  | some (.int v) => some v
  | some (.str v) => v.toInt?
  | _ => none

/-- Embedding of `_get_str`: `str(v)` of the stored value when present. -/
def getStrProp (g : Graph) (s p : String) : Option String :=
  (value g s p).map objToStr

/-- Python `x or d` on an Optional[int]: `None` and `0` are falsy. -/
def pyOrInt (x : Option Int) (d : Int) : Int :=
  match x with
  | none => d
  | some v => if v = 0 then d else v

/-- Python truthiness of an Optional[str]: `None` and `""` are falsy. -/
def pyTruthyStr (x : Option String) : Bool :=
  match x with
  | none => false
  | some v => v ≠ ""

/-- Python f-string rendering of an Optional[int]. -/
def showOptInt : Option Int → String
  | none => "None"
  | some v => toString v

/-- Python f-string rendering of an Optional[str]. -/
def showOptStr : Option String → String
  | none => "None"
  | some v => v

/-- The course metadata record of `_course_meta`; note `credits` is already
defaulted there via `_get_int(...) or 0`. -/
structure CourseMeta where
  credits : Int
  semester : Option Int
  difficulty : Option Int
  track : Option String
deriving DecidableEq

/-- Embedding of `_course_meta`. -/
def courseMeta (g : Graph) (course : String) : CourseMeta :=
  { credits := pyOrInt (getIntProp g course "credits") 0
    semester := getIntProp g course "semester"
    difficulty := getIntProp g course "difficulty"
    track := getStrProp g course "track" }

/-- The tentative budget line `_constraint_checks` emits before the greedy
pass decides. -/
def tentativeBudgetLine (maxCredits : Option Int) (cCred total : Int) : String :=
  match maxCredits with
  | none =>
      "credits: course=" ++ toString cCred ++ ", current_total=" ++ toString total ++
        ", max=None => selected by relevance"
  | some m =>
      "credits: course=" ++ toString cCred ++ ", current_total=" ++ toString total ++
        ", max=" ++ toString m ++ " => decision during selection"

/-- Embedding of `_constraint_checks`: (ok, constraint lines, tentative
budget line).  Each check fires only when both sides are known: `None` on
either side passes, and for the track check Python string truthiness also
treats the empty string as unknown. -/
def constraintChecks (targetSemester maxDifficulty : Option Int)
    (preferredTrack : Option String) (maxCredits : Option Int)
    (currentTotal : Int) (meta : CourseMeta) : Bool × List String × String :=
  let semPart : String × Bool :=
    match meta.semester, targetSemester with
    | some c, some t =>
        if c ≤ t then
          ("semester: course=" ++ toString c ++ " ≤ target=" ++ toString t ++ " => OK", true)
        else
          ("semester: course=" ++ toString c ++ " > target=" ++ toString t ++ " => FAIL", false)
    | cO, tO =>
        ("semester: course=" ++ showOptInt cO ++ " vs target=" ++ showOptInt tO ++
          " => OK (no/unknown constraint)", true)
  let diffPart : String × Bool :=
    match meta.difficulty, maxDifficulty with
    | some c, some m =>
        if c ≤ m then
          ("difficulty: course=" ++ toString c ++ " ≤ max=" ++ toString m ++ " => OK", true)
        else
          ("difficulty: course=" ++ toString c ++ " > max=" ++ toString m ++ " => FAIL", false)
    | cO, mO =>
        ("difficulty: course=" ++ showOptInt cO ++ " vs max=" ++ showOptInt mO ++
          " => OK (no/unknown constraint)", true)
  let trackPart : String × Bool :=
    if pyTruthyStr preferredTrack && pyTruthyStr meta.track then
      match meta.track, preferredTrack with
      | some c, some p =>
          if c = p then
            ("track: course=" ++ c ++ " == preferred=" ++ p ++ " => OK", true)
          else
            ("track: course=" ++ c ++ " != preferred=" ++ p ++ " => FAIL", false)
      | cO, pO =>
          ("track: course=" ++ showOptStr cO ++ " vs preferred=" ++ showOptStr pO ++
            " => OK (no/unknown constraint)", true)
    else
      ("track: course=" ++ showOptStr meta.track ++ " vs preferred=" ++
        showOptStr preferredTrack ++ " => OK (no/unknown constraint)", true)
  (semPart.2 && diffPart.2 && trackPart.2,
    [semPart.1, diffPart.1, trackPart.1],
    tentativeBudgetLine maxCredits meta.credits currentTotal)

/-- One interest-match path string. -/
def interestPath (studentLabel skillLabel courseLabel : String) : String :=
  studentLabel ++ " → hasInterest → " ++ skillLabel ++ " ← teachesSkill ← " ++ courseLabel

/-- One prerequisite-satisfaction path string. -/
def prereqPath (courseLabel preLabel studentLabel : String) : String :=
  courseLabel ++ " → hasPrerequisite → " ++ preLabel ++ " AND " ++
    studentLabel ++ " → takesCourse → " ++ preLabel

/-- Insertion step of a stable sort: the new element `a` is placed before
the first already placed `b` with `r b a = true`, hence after every earlier
element it does not strictly beat. -/
def insertBefore {α : Type} (r : α → α → Bool) (a : α) : List α → List α
  | [] => [a]
  | b :: l => if r b a then a :: b :: l else b :: insertBefore r a l

/-- Stable sort matching Python `list.sort`: elements are inserted left to
right, so elements that compare equal keep their original order. -/
def pySort {α : Type} (r : α → α → Bool) (l : List α) : List α :=
  l.foldl (fun acc x => insertBefore r x acc) []

/-- Strict lexicographic comparison of character lists by code point. -/
def charListLt : List Char → List Char → Bool
  | _, [] => false
  | [], _ :: _ => true
  | a :: as, b :: bs => if a < b then true else if b < a then false else charListLt as bs

/-- Strict lexicographic string comparison — Python compares strings by
code point. -/
def strLtB (a b : String) : Bool := charListLt a.data b.data

/-- Python ascending `sorted(xs, key=...)` with a string key. -/
def sortAscByLabel {α : Type} (key : α → String) (l : List α) : List α :=
  pySort (fun b a => strLtB (key a) (key b)) l

/-- Python ascending `sorted` of plain strings. -/
def sortStringsAsc (l : List String) : List String :=
  sortAscByLabel (fun s => s) l

/-- Strict lexicographic comparison of Python score triples. -/
def scoreLtB (a b : Int × Int × Int) : Bool :=
  decide (a.1 < b.1 ∨ (a.1 = b.1 ∧ (a.2.1 < b.2.1 ∨ (a.2.1 = b.2.1 ∧ a.2.2 < b.2.2))))

/-- Strict lexicographic comparison of the career sort key
(−matched count, career label). -/
def careerKeyLtB (a b : Int × String) : Bool :=
  decide (a.1 < b.1) || (decide (a.1 = b.1) && strLtB a.2 b.2)

/-- The explanation bundle attached to a candidate course. -/
structure CourseExplain where
  interest_paths : List String
  prereq_paths : List String
  constraint_checks : List String
  budget_line : String
deriving DecidableEq

/-- The candidate dict built in the course loop of `recommend`. -/
structure Candidate where
  course_uri : String
  course_label : String
  matched_interests : List String
  meta : CourseMeta
  score : Int × Int × Int
  explain : CourseExplain
deriving DecidableEq

/-- A returned course recommendation. -/
structure CourseRec where
  course : String
  matched_interests : List String
  explain : CourseExplain
deriving DecidableEq

/-- A returned career recommendation. -/
structure CareerRec where
  career : String
  matched_skills : List String
  explain_paths : List String
deriving DecidableEq

/-- A returned paper recommendation. -/
structure PaperRec where
  paper : String
  explain_paths : List String
deriving DecidableEq

/-- The full result of `recommend`. -/
structure RecResult where
  courses : List CourseRec
  careers : List CareerRec
  papers : List PaperRec
deriving DecidableEq

/-- The `set(g.objects(s, takesCourse))` of the student. -/
def studentTaken (g : Graph) (s : String) : List Obj :=
  objects g s "takesCourse"

/-- The `set(g.objects(s, hasInterest))` of the student. -/
def studentInterests (g : Graph) (s : String) : List Obj :=
  objects g s "hasInterest"

/-- The candidate dict assembled for a course that survives every
`continue` branch of the candidate loop. -/
def mkCandidate (g : Graph) (s : String) (interests : List Obj)
    (targetSemester maxDifficulty : Option Int) (preferredTrack : Option String)
    (maxCredits : Option Int) (course : String) : Candidate :=
  let matched := (objects g course "teachesSkill").filter (fun sk => sk ∈ interests)
  let prereqs := objects g course "hasPrerequisite"
  let meta := courseMeta g course
  let cc := constraintChecks targetSemester maxDifficulty preferredTrack maxCredits 0 meta
  let studentLabel := iriToLabel g s
  let courseLabel := iriToLabel g course
  { course_uri := course
    course_label := courseLabel
    matched_interests := sortStringsAsc (matched.map (labelOfObj g))
    meta := meta
    score := ((matched.length : Int), -(pyOrInt meta.difficulty 999),
      -(pyOrInt meta.semester 999))
    explain :=
      { interest_paths :=
          matched.map (fun sk => interestPath studentLabel (labelOfObj g sk) courseLabel)
        prereq_paths :=
          (sortAscByLabel (labelOfObj g) prereqs).map
            (fun p => prereqPath courseLabel (labelOfObj g p) studentLabel)
        constraint_checks := cc.2.1
        budget_line := cc.2.2 } }

/-- The body of the candidate loop of `recommend` for one course node:
`none` exactly when one of the `continue` branches fires. -/
def candidateOf (g : Graph) (s : String) (taken interests : List Obj)
    (targetSemester maxDifficulty : Option Int) (preferredTrack : Option String)
    (maxCredits : Option Int) (course : String) : Option Candidate :=
  if Obj.node course ∈ taken then none
  else if (objects g course "teachesSkill").filter (fun sk => sk ∈ interests) = [] then none
  else if ∀ p ∈ objects g course "hasPrerequisite", p ∈ taken then
    if (constraintChecks targetSemester maxDifficulty preferredTrack maxCredits 0
        (courseMeta g course)).1 then
      some (mkCandidate g s interests targetSemester maxDifficulty preferredTrack
        maxCredits course)
    else none
  else none

/-- The candidate list of `recommend`, in graph iteration order. -/
def candidatesOf (g : Graph) (s : String) : List Candidate :=
  (subjectsOfType g "Course").filterMap
    (candidateOf g s (studentTaken g s) (studentInterests g s)
      (getIntProp g s "targetSemester") (getIntProp g s "maxDifficulty")
      (getStrProp g s "preferredTrack") (getIntProp g s "maxCredits"))

/-- The candidate list after `candidates.sort(key=score, reverse=True)`:
a stable descending sort by the score triple. -/
def rankedCandidates (g : Graph) (s : String) : List Candidate :=
  pySort (fun b a => scoreLtB b.score a.score) (candidatesOf g s)

/-- The final budget line when `maxCredits` is unset. -/
def selectedLineNone (cCred total : Int) : String :=
  "credits: course=" ++ toString cCred ++ ", current_total=" ++ toString total ++
    ", max=None => SELECTED"

/-- The final budget line of an accepted course under a credit budget. -/
def selectedLineSome (cCred total m : Int) : String :=
  "credits: course=" ++ toString cCred ++ ", current_total=" ++ toString total ++
    " + " ++ toString cCred ++ " ≤ max=" ++ toString m ++ " => SELECTED"

/-- The final budget line of a skipped course (written into the candidate
dict, which is then dropped from the output). -/
def skippedLineSome (cCred total m : Int) : String :=
  "credits: course=" ++ toString cCred ++ ", current_total=" ++ toString total ++
    " + " ++ toString cCred ++ " > max=" ++ toString m ++ " => SKIPPED"

/-- Projection of a selected candidate to the returned record, with its
budget line overwritten. -/
def toCourseRec (item : Candidate) (bline : String) : CourseRec :=
  { course := item.course_label
    matched_interests := item.matched_interests
    explain := { item.explain with budget_line := bline } }

/-- The greedy credit-budget selection pass of `recommend`; `total` is the
running credit total. -/
def budgetSelect (maxCredits : Option Int) : List Candidate → Int → List CourseRec
  | [], _ => []
  | item :: rest, total =>
    match maxCredits with
    | none =>
        toCourseRec item (selectedLineNone item.meta.credits total) ::
          budgetSelect none rest (total + item.meta.credits)
    | some m =>
        if total + item.meta.credits ≤ m then
          toCourseRec item (selectedLineSome item.meta.credits total m) ::
            budgetSelect (some m) rest (total + item.meta.credits)
        else
          budgetSelect (some m) rest total

/-- The course records a selection list would carry if the budget line of
each entry records that entry's own credits together with the cumulative
credit total of the entries selected before it — the shape claim C7
asserts of the final budget lines. -/
def annotateBudget (maxCredits : Option Int) : List Candidate → Int → List CourseRec
  | [], _ => []
  | c :: cs, t =>
      toCourseRec c
        (match maxCredits with
          | none => selectedLineNone c.meta.credits t
          | some m => selectedLineSome c.meta.credits t m) ::
        annotateBudget maxCredits cs (t + c.meta.credits)

/-- Every entry of a selection list passed the budget check at the running
total current when it was reached: the acceptance-time arithmetic of the
greedy pass. -/
def greedyAcceptsFrom (m : Int) : List Candidate → Int → Prop
  | [], _ => True
  | c :: cs, t => t + c.meta.credits ≤ m ∧ greedyAcceptsFrom m cs (t + c.meta.credits)

/-- The union of `teachesSkill` objects over a list of taken courses, in
iteration order (the `gained_skills` loop). -/
def gatherTaught (g : Graph) : List Obj → List Obj
  | [] => []
  | c :: rest => objectsO g c "teachesSkill" ++ gatherTaught g rest

/-- `available_skills = interest_skills.union(gained_skills)`. -/
def availableSkills (g : Graph) (s : String) : List Obj :=
  dedupF (studentInterests g s ++ gatherTaught g (studentTaken g s))

/-- Whether `(c, teachesSkill, sk) in g` for an arbitrary term `c`. -/
def teachesInGraph (g : Graph) (c sk : Obj) : Bool :=
  match c with
  | .node id => decide (Triple.mk id "teachesSkill" sk ∈ g.triples)
  | _ => false

/-- One career explanation path: direct interest match, match via the
first taken course found to teach the skill, or provenance unspecified. -/
def careerPathFor (g : Graph) (studentLabel : String) (interests taken : List Obj)
    (carLabel : String) (sk : Obj) : String :=
  if sk ∈ interests then
    studentLabel ++ " → hasInterest → " ++ labelOfObj g sk ++ " ← requiresSkill ← " ++ carLabel
  else
    match taken.find? (fun c => teachesInGraph g c sk) with
    | some c =>
        studentLabel ++ " → takesCourse → " ++ labelOfObj g c ++ " → teachesSkill → " ++
          labelOfObj g sk ++ " ← requiresSkill ← " ++ carLabel
    | none => labelOfObj g sk ++ " ← requiresSkill ← " ++ carLabel ++ " (skill available)"

/-- The career entry built for a matching career node. -/
def careerEntry (g : Graph) (studentLabel : String) (interests taken available : List Obj)
    (car : String) : CareerRec :=
  let matched := (objects g car "requiresSkill").filter (fun sk => sk ∈ available)
  let carLabel := iriToLabel g car
  { career := carLabel
    matched_skills := sortStringsAsc (matched.map (labelOfObj g))
    explain_paths :=
      (sortAscByLabel (labelOfObj g) matched).map
        (careerPathFor g studentLabel interests taken carLabel) }

/-- The career sort key: `(-len(matched_skills), career)`. -/
def careerKey (x : CareerRec) : Int × String :=
  (-(x.matched_skills.length : Int), x.career)

/-- The careers part of `recommend`. -/
def recCareers (g : Graph) (s : String) : List CareerRec :=
  pySort (fun b a => careerKeyLtB (careerKey a) (careerKey b))
    ((subjectsOfType g "Career").filterMap (fun car =>
      if ((objects g car "requiresSkill").filter
          (fun sk => sk ∈ availableSkills g s)) = [] then none
      else
        some (careerEntry g (iriToLabel g s) (studentInterests g s) (studentTaken g s)
          (availableSkills g s) car)))

/-- The paper entry built for a matching paper node. -/
def paperEntry (g : Graph) (studentLabel : String) (interests : List Obj)
    (p : String) : PaperRec :=
  let matched := (objects g p "relatedTo").filter (fun sk => sk ∈ interests)
  let pLabel := iriToLabel g p
  { paper := pLabel
    explain_paths :=
      (sortAscByLabel (labelOfObj g) matched).map (fun sk =>
        studentLabel ++ " → hasInterest → " ++ labelOfObj g sk ++ " ← relatedTo ← " ++ pLabel) }

/-- The papers part of `recommend`. -/
def recPapers (g : Graph) (s : String) : List PaperRec :=
  pySort (fun b a => strLtB a.paper b.paper)
    ((subjectsOfType g "ResearchPaper").filterMap (fun p =>
      if ((objects g p "relatedTo").filter (fun sk => sk ∈ studentInterests g s)) = [] then none
      else some (paperEntry g (iriToLabel g s) (studentInterests g s) p)))

/-- Embedding of `recommend(g, student_iri)`. -/
def recommend (g : Graph) (s : String) : RecResult :=
  { courses := budgetSelect (getIntProp g s "maxCredits") (rankedCandidates g s) 0
    careers := recCareers g s
    papers := recPapers g s }

/-- The ranking key the code computes for a candidate, written in terms of
its surviving fields: (matched-interest count, −(difficulty or 999),
−(semester or 999)) with Python falsiness in `or`. -/
def rankKey (cand : Candidate) : Int × Int × Int :=
  ((cand.matched_interests.length : Int), -(pyOrInt cand.meta.difficulty 999),
    -(pyOrInt cand.meta.semester 999))

/-- Modelled from the spec: the greedy accept/skip rule of step 5 stated in
the spec's own words — walk the ranked list with a running total, select a
candidate iff running_total + credits(candidate) ≤ maxCredits, and always
advance to the next candidate.  Used only to compare the selection made by
`recommend` against this description. -/
def greedyRule (m : Int) : List Candidate → Int → List Candidate
  | [], _ => []
  | x :: xs, t =>
      if t + x.meta.credits ≤ m then x :: greedyRule m xs (t + x.meta.credits)
      else greedyRule m xs t

/-- Modelled from the claim wording of C4: strict comparison of negated
optional values where a missing value is worst (−∞). -/
def negWorstLtB : Option Int → Option Int → Bool
  | none, none => false
  | none, some _ => true
  | some _, none => false
  | some x, some y => decide ((-x) < (-y))

/-- Modelled from the claim wording of C4: strictly below in the descending
tuple (count of matched interests, −difficulty, −semester), missing
difficulty/semester treated as worst. -/
def specRankLtB (a b : Candidate) : Bool :=
  decide (a.matched_interests.length < b.matched_interests.length) ||
    (decide (a.matched_interests.length = b.matched_interests.length) &&
      (negWorstLtB a.meta.difficulty b.meta.difficulty ||
        (decide (a.meta.difficulty = b.meta.difficulty) &&
          negWorstLtB a.meta.semester b.meta.semester)))

/-- The final character of a string, used to separate the rendered budget
line families. -/
def lastChar (s : String) : Option Char :=
  s.data.getLast?

/-- Concrete store for the spec's Ada scenario, rows inserted with CS201
before CS202 (the CSV order the spec example suggests). -/
def gAda : Graph := ⟨[
  ⟨"Ada", "rdf:type", .node "Student"⟩,
  ⟨"Ada", "hasInterest", .node "ML"⟩,
  ⟨"Ada", "takesCourse", .node "CS101"⟩,
  ⟨"Ada", "maxCredits", .int 6⟩,
  ⟨"CS101", "rdf:type", .node "Course"⟩,
  ⟨"CS201", "rdf:type", .node "Course"⟩,
  ⟨"CS201", "hasPrerequisite", .node "CS101"⟩,
  ⟨"CS201", "credits", .int 4⟩,
  ⟨"CS201", "teachesSkill", .node "ML"⟩,
  ⟨"CS202", "rdf:type", .node "Course"⟩,
  ⟨"CS202", "hasPrerequisite", .node "CS101"⟩,
  ⟨"CS202", "credits", .int 4⟩,
  ⟨"CS202", "teachesSkill", .node "ML"⟩]⟩

/-- The same Ada scenario with the two candidate courses inserted in the
opposite order (CS202 rows before CS201 rows): the same scenario data, a
different but equally legitimate insertion order. -/
def gAdaSwapped : Graph := ⟨[
  ⟨"Ada", "rdf:type", .node "Student"⟩,
  ⟨"Ada", "hasInterest", .node "ML"⟩,
  ⟨"Ada", "takesCourse", .node "CS101"⟩,
  ⟨"Ada", "maxCredits", .int 6⟩,
  ⟨"CS101", "rdf:type", .node "Course"⟩,
  ⟨"CS202", "rdf:type", .node "Course"⟩,
  ⟨"CS202", "hasPrerequisite", .node "CS101"⟩,
  ⟨"CS202", "credits", .int 4⟩,
  ⟨"CS202", "teachesSkill", .node "ML"⟩,
  ⟨"CS201", "rdf:type", .node "Course"⟩,
  ⟨"CS201", "hasPrerequisite", .node "CS101"⟩,
  ⟨"CS201", "credits", .int 4⟩,
  ⟨"CS201", "teachesSkill", .node "ML"⟩]⟩

/-- The course record that `recommend gAda "Ada"` returns. -/
def adaRec : CourseRec :=
  { course := "CS201"
    matched_interests := ["ML"]
    explain :=
      { interest_paths := ["Ada → hasInterest → ML ← teachesSkill ← CS201"]
        prereq_paths := ["CS201 → hasPrerequisite → CS101 AND Ada → takesCourse → CS101"]
        constraint_checks :=
          ["semester: course=None vs target=None => OK (no/unknown constraint)",
            "difficulty: course=None vs max=None => OK (no/unknown constraint)",
            "track: course=None vs preferred=None => OK (no/unknown constraint)"]
        budget_line := "credits: course=4, current_total=0 + 4 ≤ max=6 => SELECTED" } }

/-- Concrete store for claim C4: two candidate courses with one matched
interest each, one of difficulty 0 and one of difficulty 5. -/
def gDiffZero : Graph := ⟨[
  ⟨"stu", "hasInterest", .node "ML"⟩,
  ⟨"A0", "rdf:type", .node "Course"⟩,
  ⟨"A0", "teachesSkill", .node "ML"⟩,
  ⟨"A0", "difficulty", .int 0⟩,
  ⟨"B5", "rdf:type", .node "Course"⟩,
  ⟨"B5", "teachesSkill", .node "ML"⟩,
  ⟨"B5", "difficulty", .int 5⟩]⟩

/-- Concrete store for claim C5: one course teaching two matched skills
whose labels are in reverse alphabetical order of skill iteration. -/
def gTwoSkills : Graph := ⟨[
  ⟨"Stu", "hasInterest", .node "Zeta"⟩,
  ⟨"Stu", "hasInterest", .node "Alpha"⟩,
  ⟨"C1", "rdf:type", .node "Course"⟩,
  ⟨"C1", "teachesSkill", .node "Zeta"⟩,
  ⟨"C1", "teachesSkill", .node "Alpha"⟩]⟩

/-- Concrete store for claim C2's counterexample: a student whose
`maxCredits` is the negative integer −1. -/
def gNegBudget : Graph := ⟨[
  ⟨"sn", "rdf:type", .node "Student"⟩,
  ⟨"sn", "maxCredits", .int (-1)⟩]⟩

/-- Concrete store for claim C10's counterexample: a student with
`maxCredits` −1 and one eligible, interest-matched course that has no
`credits` value. -/
def gNegZero : Graph := ⟨[
  ⟨"zs", "hasInterest", .node "ML"⟩,
  ⟨"zs", "maxCredits", .int (-1)⟩,
  ⟨"zc", "rdf:type", .node "Course"⟩,
  ⟨"zc", "teachesSkill", .node "ML"⟩]⟩

/-- Concrete store with careers and a paper, used for witnesses. -/
def gCareers : Graph := ⟨[
  ⟨"stu", "hasInterest", .node "ML"⟩,
  ⟨"stu", "takesCourse", .node "CS1"⟩,
  ⟨"CS1", "teachesSkill", .node "DB"⟩,
  ⟨"DataSci", "rdf:type", .node "Career"⟩,
  ⟨"DataSci", "requiresSkill", .node "ML"⟩,
  ⟨"DataSci", "requiresSkill", .node "DB"⟩,
  ⟨"Eng", "rdf:type", .node "Career"⟩,
  ⟨"Eng", "requiresSkill", .node "DB"⟩,
  ⟨"P1", "rdf:type", .node "ResearchPaper"⟩,
  ⟨"P1", "relatedTo", .node "ML"⟩]⟩

/-- Concrete store for claim C9's witness: a populated store in which the
id `ghost` occurs nowhere as a subject. -/
def gKnown : Graph := ⟨[
  ⟨"real", "rdf:type", .node "Student"⟩,
  ⟨"real", "hasInterest", .node "ML"⟩,
  ⟨"CSx", "rdf:type", .node "Course"⟩,
  ⟨"CSx", "teachesSkill", .node "ML"⟩,
  ⟨"Car", "rdf:type", .node "Career"⟩,
  ⟨"Car", "requiresSkill", .node "ML"⟩]⟩

/-- Concrete store for claim C10's witness: a non-negative budget and one
eligible course without a `credits` value. -/
def gZeroCred : Graph := ⟨[
  ⟨"s10", "hasInterest", .node "ML"⟩,
  ⟨"s10", "maxCredits", .int 5⟩,
  ⟨"c10", "rdf:type", .node "Course"⟩,
  ⟨"c10", "teachesSkill", .node "ML"⟩]⟩

/-- The single candidate that `rankedCandidates gZeroCred "s10"` holds. -/
def zeroCand : Candidate :=
  { course_uri := "c10"
    course_label := "c10"
    matched_interests := ["ML"]
    meta := { credits := 0, semester := none, difficulty := none, track := none }
    score := (1, -999, -999)
    explain :=
      { interest_paths := ["s10 → hasInterest → ML ← teachesSkill ← c10"]
        prereq_paths := []
        constraint_checks :=
          ["semester: course=None vs target=None => OK (no/unknown constraint)",
            "difficulty: course=None vs max=None => OK (no/unknown constraint)",
            "track: course=None vs preferred=None => OK (no/unknown constraint)"]
        budget_line := "credits: course=0, current_total=0, max=5 => decision during selection" } }

/-! ### List-level helper lemmas -/

theorem mem_dedupSeen {α : Type} [DecidableEq α] (seen l : List α) (a : α) :
    a ∈ dedupSeen seen l ↔ a ∈ l ∧ a ∉ seen := by
  induction l generalizing seen with
  | nil => simp [dedupSeen]
  | cons b l ih =>
    by_cases hb : b ∈ seen
    · rw [dedupSeen, if_pos hb, ih, List.mem_cons]
      constructor
      · rintro ⟨h1, h2⟩
        exact ⟨Or.inr h1, h2⟩
      · rintro ⟨rfl | h1, h2⟩
        · exact absurd hb h2
        · exact ⟨h1, h2⟩
    · rw [dedupSeen, if_neg hb]
      simp only [List.mem_cons, ih]
      constructor
      · rintro (rfl | ⟨h1, h2⟩)
        · exact ⟨Or.inl rfl, hb⟩
        · exact ⟨Or.inr h1, fun hs => h2 (Or.inr hs)⟩
      · rintro ⟨rfl | h1, h2⟩
        · exact Or.inl rfl
        · by_cases hab : a = b
          · exact Or.inl hab
          · exact Or.inr ⟨h1, fun hs => hs.elim hab h2⟩

theorem mem_dedupF {α : Type} [DecidableEq α] (l : List α) (a : α) :
    a ∈ dedupF l ↔ a ∈ l := by
  rw [dedupF, mem_dedupSeen]
  simp

theorem mem_insertBefore {α : Type} (r : α → α → Bool) (a x : α) (l : List α) :
    x ∈ insertBefore r a l ↔ x = a ∨ x ∈ l := by
  induction l with
  | nil => simp [insertBefore]
  | cons b l ih =>
    rw [insertBefore]
    split
    · simp [List.mem_cons]
    · simp only [List.mem_cons, ih]
      tauto

theorem length_insertBefore {α : Type} (r : α → α → Bool) (a : α) (l : List α) :
    (insertBefore r a l).length = l.length + 1 := by
  induction l with
  | nil => simp [insertBefore]
  | cons b l ih =>
    rw [insertBefore]
    split
    · simp
    · simp [ih]

theorem mem_pySort_aux {α : Type} (r : α → α → Bool) (l acc : List α) (x : α) :
    x ∈ List.foldl (fun acc y => insertBefore r y acc) acc l ↔ x ∈ acc ∨ x ∈ l := by
  induction l generalizing acc with
  | nil => simp
  | cons b l ih =>
    rw [List.foldl_cons, ih, mem_insertBefore]
    simp only [List.mem_cons]
    tauto

theorem mem_pySort {α : Type} (r : α → α → Bool) (l : List α) (x : α) :
    x ∈ pySort r l ↔ x ∈ l := by
  rw [pySort, mem_pySort_aux]
  simp

theorem length_pySort_aux {α : Type} (r : α → α → Bool) (l acc : List α) :
    (List.foldl (fun acc y => insertBefore r y acc) acc l).length = acc.length + l.length := by
  induction l generalizing acc with
  | nil => simp
  | cons b l ih =>
    rw [List.foldl_cons, ih, length_insertBefore]
    simp only [List.length_cons]
    omega

theorem length_pySort {α : Type} (r : α → α → Bool) (l : List α) :
    (pySort r l).length = l.length := by
  rw [pySort, length_pySort_aux]
  simp

theorem pairwise_insertBefore {α : Type} {r : α → α → Bool}
    (hasymm : ∀ a b, r a b = true → r b a = false)
    (htrans : ∀ a b c, r a b = true → r b c = true → r a c = true)
    (a : α) {l : List α} (h : l.Pairwise (fun x y => r x y = false)) :
    (insertBefore r a l).Pairwise (fun x y => r x y = false) := by
  induction l with
  | nil => simp [insertBefore]
  | cons b l ih =>
    rw [List.pairwise_cons] at h
    obtain ⟨hb, hl⟩ := h
    rw [insertBefore]
    split
    next hba =>
      refine List.pairwise_cons.mpr ⟨?_, List.pairwise_cons.mpr ⟨hb, hl⟩⟩
      intro y hy
      rcases List.mem_cons.mp hy with rfl | hy
      · exact hasymm _ _ hba
      · cases hray : r a y with
        | false => rfl
        | true =>
          have hby := htrans _ _ _ hba hray
          rw [hb y hy] at hby
          exact Bool.noConfusion hby
    next hba =>
      have hba2 : r b a = false := by
        cases hv : r b a
        · rfl
        · exact absurd hv hba
      refine List.pairwise_cons.mpr ⟨?_, ih hl⟩
      intro y hy
      rcases (mem_insertBefore r a y l).mp hy with rfl | hy
      · exact hba2
      · exact hb y hy

theorem pairwise_pySort {α : Type} {r : α → α → Bool}
    (hasymm : ∀ a b, r a b = true → r b a = false)
    (htrans : ∀ a b c, r a b = true → r b c = true → r a c = true)
    (l : List α) :
    (pySort r l).Pairwise (fun x y => r x y = false) := by
  rw [pySort]
  have haux : ∀ acc, acc.Pairwise (fun x y => r x y = false) →
      (List.foldl (fun acc y => insertBefore r y acc) acc l).Pairwise
        (fun x y => r x y = false) := by
    induction l with
    | nil => intro acc hacc; simpa using hacc
    | cons b l ih =>
      intro acc hacc
      rw [List.foldl_cons]
      exact ih _ (pairwise_insertBefore hasymm htrans b hacc)
  exact haux [] (by simp)

theorem scoreLtB_asymm (a b : Int × Int × Int) (h : scoreLtB a b = true) :
    scoreLtB b a = false := by
  obtain ⟨a1, a2, a3⟩ := a
  obtain ⟨b1, b2, b3⟩ := b
  simp only [scoreLtB, decide_eq_true_eq] at h
  simp only [scoreLtB, decide_eq_false_iff_not]
  omega

theorem scoreLtB_trans (a b c : Int × Int × Int) (h1 : scoreLtB a b = true)
    (h2 : scoreLtB b c = true) : scoreLtB a c = true := by
  obtain ⟨a1, a2, a3⟩ := a
  obtain ⟨b1, b2, b3⟩ := b
  obtain ⟨c1, c2, c3⟩ := c
  simp only [scoreLtB, decide_eq_true_eq] at h1 h2 ⊢
  omega

/-! ### Budget-selection lemmas -/

theorem mem_budgetSelect_none {l : List Candidate} {t : Int} {item : CourseRec}
    (h : item ∈ budgetSelect none l t) :
    ∃ cand ∈ l, ∃ tt, item = toCourseRec cand (selectedLineNone cand.meta.credits tt) := by
  induction l generalizing t with
  | nil => simp [budgetSelect] at h
  | cons x xs ih =>
    simp only [budgetSelect] at h
    rcases List.mem_cons.mp h with rfl | h
    · exact ⟨x, List.mem_cons_self x xs, t, rfl⟩
    · obtain ⟨cand, hc, tt, he⟩ := ih h
      exact ⟨cand, List.mem_cons_of_mem _ hc, tt, he⟩

theorem mem_budgetSelect_some {m : Int} {l : List Candidate} {t : Int} {item : CourseRec}
    (h : item ∈ budgetSelect (some m) l t) :
    ∃ cand ∈ l, ∃ tt, item = toCourseRec cand (selectedLineSome cand.meta.credits tt m) := by
  induction l generalizing t with
  | nil => simp [budgetSelect] at h
  | cons x xs ih =>
    simp only [budgetSelect] at h
    split at h
    · rcases List.mem_cons.mp h with rfl | h
      · exact ⟨x, List.mem_cons_self x xs, t, rfl⟩
      · obtain ⟨cand, hc, tt, he⟩ := ih h
        exact ⟨cand, List.mem_cons_of_mem _ hc, tt, he⟩
    · obtain ⟨cand, hc, tt, he⟩ := ih h
      exact ⟨cand, List.mem_cons_of_mem _ hc, tt, he⟩

theorem budgetSelect_some_eq_greedy (m : Int) (l : List Candidate) (t : Int) :
    (budgetSelect (some m) l t).map (fun i => (i.course, i.matched_interests)) =
      (greedyRule m l t).map (fun c => (c.course_label, c.matched_interests)) := by
  induction l generalizing t with
  | nil => simp [budgetSelect, greedyRule]
  | cons x xs ih =>
    simp only [budgetSelect, greedyRule]
    by_cases hc : t + x.meta.credits ≤ m
    · rw [if_pos hc, if_pos hc]
      simp [toCourseRec, ih]
    · rw [if_neg hc, if_neg hc]
      exact ih _

theorem greedyRule_total_le (m : Int) (l : List Candidate) (t : Int) (ht : t ≤ m) :
    t + ((greedyRule m l t).map (fun c => c.meta.credits)).sum ≤ m := by
  induction l generalizing t with
  | nil => simpa [greedyRule] using ht
  | cons x xs ih =>
    rw [greedyRule]
    by_cases hc : t + x.meta.credits ≤ m
    · rw [if_pos hc]
      have := ih (t + x.meta.credits) hc
      simp only [List.map_cons, List.sum_cons]
      omega
    · rw [if_neg hc]
      exact ih t ht

theorem budgetSelect_zero_mem (m : Int) (l : List Candidate) (t : Int) (ht : t ≤ m)
    (cand : Candidate) (hc : cand ∈ l) (h0 : cand.meta.credits = 0) :
    ∃ item ∈ budgetSelect (some m) l t, item.course = cand.course_label ∧
      item.matched_interests = cand.matched_interests ∧
      ∃ tt, item.explain.budget_line = selectedLineSome 0 tt m := by
  induction l generalizing t with
  | nil => simp at hc
  | cons x xs ih =>
    rcases List.mem_cons.mp hc with rfl | hc
    · have hsel : t + cand.meta.credits ≤ m := by omega
      refine ⟨toCourseRec cand (selectedLineSome cand.meta.credits t m), ?_, rfl, rfl, t, ?_⟩
      · simp only [budgetSelect, if_pos hsel]
        exact List.mem_cons_self _ _
      · show selectedLineSome cand.meta.credits t m = selectedLineSome 0 t m
        rw [h0]
    · simp only [budgetSelect]
      by_cases hsel : t + x.meta.credits ≤ m
      · rw [if_pos hsel]
        obtain ⟨item, hi, h1, h2, tt, h3⟩ := ih (t + x.meta.credits) hsel hc
        exact ⟨item, List.mem_cons_of_mem _ hi, h1, h2, tt, h3⟩
      · rw [if_neg hsel]
        exact ih t ht hc

/-! ### Candidate-extraction lemmas -/

theorem candidateOf_eq_some {g : Graph} {s : String} {taken interests : List Obj}
    {ts md : Option Int} {pt : Option String} {mc : Option Int} {course : String}
    {cand : Candidate}
    (h : candidateOf g s taken interests ts md pt mc course = some cand) :
    Obj.node course ∉ taken ∧
    (objects g course "teachesSkill").filter (fun sk => sk ∈ interests) ≠ [] ∧
    (∀ p ∈ objects g course "hasPrerequisite", p ∈ taken) ∧
    (constraintChecks ts md pt mc 0 (courseMeta g course)).1 = true ∧
    cand = mkCandidate g s interests ts md pt mc course := by
  rw [candidateOf] at h
  split at h
  · exact absurd h (by simp)
  · split at h
    · exact absurd h (by simp)
    · split at h
      · split at h
        · refine ⟨by assumption, by assumption, by assumption, by assumption, ?_⟩
          exact (Option.some.inj h).symm
        · exact absurd h (by simp)
      · exact absurd h (by simp)

theorem constraintChecks_fst_spec {ts md : Option Int} {pt : Option String}
    {mc : Option Int} {tot : Int} {meta : CourseMeta}
    (h : (constraintChecks ts md pt mc tot meta).1 = true) :
    (∀ c t, meta.semester = some c → ts = some t → c ≤ t) ∧
    (∀ c m, meta.difficulty = some c → md = some m → c ≤ m) ∧
    (∀ c p, meta.track = some c → pt = some p → c ≠ "" → p ≠ "" → c = p) := by
  simp only [constraintChecks, Bool.and_eq_true] at h
  obtain ⟨⟨hsem, hdiff⟩, htrack⟩ := h
  refine ⟨?_, ?_, ?_⟩
  · intro c t hc ht
    rw [hc, ht] at hsem
    simp only at hsem
    split at hsem
    · assumption
    · simp at hsem
  · intro c m hc hm
    rw [hc, hm] at hdiff
    simp only at hdiff
    split at hdiff
    · assumption
    · simp at hdiff
  · intro c p hc hp hcne hpne
    rw [hc, hp] at htrack
    have hcond : pyTruthyStr (some p) = true ∧ pyTruthyStr (some c) = true := by
      simp [pyTruthyStr, hpne, hcne]
    rw [if_pos hcond] at htrack
    simp only at htrack
    split at htrack
    · assumption
    · simp at htrack

/-! ### Availability lemmas -/

theorem mem_gatherTaught (g : Graph) (l : List Obj) (sk : Obj) :
    sk ∈ gatherTaught g l ↔ ∃ c ∈ l, sk ∈ objectsO g c "teachesSkill" := by
  induction l with
  | nil => simp [gatherTaught]
  | cons c rest ih =>
    rw [gatherTaught, List.mem_append, ih]
    simp only [List.mem_cons]
    constructor
    · rintro (h | ⟨c2, hc2, hs⟩)
      · exact ⟨c, Or.inl rfl, h⟩
      · exact ⟨c2, Or.inr hc2, hs⟩
    · rintro ⟨c2, rfl | hc2, hs⟩
      · exact Or.inl hs
      · exact Or.inr ⟨c2, hc2, hs⟩

theorem mem_availableSkills (g : Graph) (s : String) (sk : Obj) :
    sk ∈ availableSkills g s ↔
      sk ∈ studentInterests g s ∨
        ∃ tc ∈ studentTaken g s, sk ∈ objectsO g tc "teachesSkill" := by
  rw [availableSkills, mem_dedupF, List.mem_append, mem_gatherTaught]

theorem mkCandidate_matched_length (g : Graph) (s : String) (interests : List Obj)
    (ts md : Option Int) (pt : Option String) (mc : Option Int) (course : String) :
    (mkCandidate g s interests ts md pt mc course).matched_interests.length =
      ((objects g course "teachesSkill").filter (fun sk => sk ∈ interests)).length := by
  show (sortStringsAsc
    (((objects g course "teachesSkill").filter (fun sk => sk ∈ interests)).map
      (labelOfObj g))).length = _
  rw [sortStringsAsc, sortAscByLabel, length_pySort, List.length_map]

theorem mkCandidate_score_rankKey (g : Graph) (s : String) (interests : List Obj)
    (ts md : Option Int) (pt : Option String) (mc : Option Int) (course : String) :
    (mkCandidate g s interests ts md pt mc course).score =
      rankKey (mkCandidate g s interests ts md pt mc course) := by
  rw [rankKey, mkCandidate_matched_length]
  rfl

theorem score_eq_rankKey_of_mem {g : Graph} {s : String} {cand : Candidate}
    (h : cand ∈ candidatesOf g s) : cand.score = rankKey cand := by
  rw [candidatesOf] at h
  obtain ⟨c, _, hsome⟩ := List.mem_filterMap.mp h
  obtain ⟨_, _, _, _, rfl⟩ := candidateOf_eq_some hsome
  exact mkCandidate_score_rankKey _ _ _ _ _ _ _ _

/-! ### Last-character lemmas for the rendered budget lines -/

theorem lastChar_append (x y : String) (c : Char) (h : lastChar y = some c) :
    lastChar (x ++ y) = some c := by
  rw [lastChar] at h ⊢
  rw [String.data_append, List.getLast?_append, h]
  rfl

theorem lastChar_selectedLineNone (c t : Int) :
    lastChar (selectedLineNone c t) = some 'D' := by
  rw [selectedLineNone]
  exact lastChar_append _ _ _ (by decide)

theorem lastChar_selectedLineSome (c t m : Int) :
    lastChar (selectedLineSome c t m) = some 'D' := by
  rw [selectedLineSome]
  exact lastChar_append _ _ _ (by decide)

theorem lastChar_tentativeNone (c t : Int) :
    lastChar (tentativeBudgetLine none c t) = some 'e' := by
  rw [tentativeBudgetLine]
  exact lastChar_append _ _ _ (by decide)

theorem lastChar_tentativeSome (m c t : Int) :
    lastChar (tentativeBudgetLine (some m) c t) = some 'n' := by
  rw [tentativeBudgetLine]
  exact lastChar_append _ _ _ (by decide)

/-! ### Claim C1 -/

/-- C1: every course returned by `recommend` comes from a Course node that
the student has not taken, whose prerequisites are all taken, whose taught
skills meet the student's interests (recorded as `matched_interests`), and
which passes every hard constraint whose two sides are known. -/
theorem C1_course_inclusion (g : Graph) (s : String) (item : CourseRec)
    (h : item ∈ (recommend g s).courses) :
    ∃ c ∈ subjectsOfType g "Course",
      item.course = iriToLabel g c ∧
      Obj.node c ∉ objects g s "takesCourse" ∧
      (∀ p ∈ objects g c "hasPrerequisite", p ∈ objects g s "takesCourse") ∧
      (∃ sk ∈ objects g c "teachesSkill", sk ∈ objects g s "hasInterest") ∧
      item.matched_interests =
        sortStringsAsc (((objects g c "teachesSkill").filter
          (fun sk => sk ∈ objects g s "hasInterest")).map (labelOfObj g)) ∧
      (∀ cs t, getIntProp g c "semester" = some cs →
        getIntProp g s "targetSemester" = some t → cs ≤ t) ∧
      (∀ cd m, getIntProp g c "difficulty" = some cd →
        getIntProp g s "maxDifficulty" = some m → cd ≤ m) ∧
      (∀ ct p, getStrProp g c "track" = some ct → getStrProp g s "preferredTrack" = some p →
        ct ≠ "" → p ≠ "" → ct = p) := by
  have hsel : item ∈ budgetSelect (getIntProp g s "maxCredits") (rankedCandidates g s) 0 := h
  have hcand : ∃ cand ∈ rankedCandidates g s, item.course = cand.course_label ∧
      item.matched_interests = cand.matched_interests := by
    rcases hmc : getIntProp g s "maxCredits" with _ | m
    · rw [hmc] at hsel
      obtain ⟨cand, hc, tt, rfl⟩ := mem_budgetSelect_none hsel
      exact ⟨cand, hc, rfl, rfl⟩
    · rw [hmc] at hsel
      obtain ⟨cand, hc, tt, rfl⟩ := mem_budgetSelect_some hsel
      exact ⟨cand, hc, rfl, rfl⟩
  obtain ⟨cand, hrank, hco, hmi⟩ := hcand
  have hmem : cand ∈ candidatesOf g s := (mem_pySort _ _ _).mp hrank
  rw [candidatesOf] at hmem
  obtain ⟨c, hcsub, hsome⟩ := List.mem_filterMap.mp hmem
  obtain ⟨hnt, hne, hpre, hok, rfl⟩ := candidateOf_eq_some hsome
  obtain ⟨hsemOk, hdiffOk, htrackOk⟩ := constraintChecks_fst_spec hok
  refine ⟨c, hcsub, hco, hnt, hpre, ?_, hmi, hsemOk, hdiffOk, htrackOk⟩
  obtain ⟨sk, hsk⟩ := List.exists_mem_of_ne_nil _ hne
  obtain ⟨hskT, hski⟩ := List.mem_filter.mp hsk
  simp only [decide_eq_true_eq] at hski
  exact ⟨sk, hskT, hski⟩

/-- C1 witness: the theorem applied to the Ada store and its returned
course record. -/
theorem C1_course_inclusion_witness :
    ∃ c ∈ subjectsOfType gAda "Course",
      adaRec.course = iriToLabel gAda c ∧
      Obj.node c ∉ objects gAda "Ada" "takesCourse" ∧
      (∀ p ∈ objects gAda c "hasPrerequisite", p ∈ objects gAda "Ada" "takesCourse") ∧
      (∃ sk ∈ objects gAda c "teachesSkill", sk ∈ objects gAda "Ada" "hasInterest") ∧
      adaRec.matched_interests =
        sortStringsAsc (((objects gAda c "teachesSkill").filter
          (fun sk => sk ∈ objects gAda "Ada" "hasInterest")).map (labelOfObj gAda)) ∧
      (∀ cs t, getIntProp gAda c "semester" = some cs →
        getIntProp gAda "Ada" "targetSemester" = some t → cs ≤ t) ∧
      (∀ cd m, getIntProp gAda c "difficulty" = some cd →
        getIntProp gAda "Ada" "maxDifficulty" = some m → cd ≤ m) ∧
      (∀ ct p, getStrProp gAda c "track" = some ct →
        getStrProp gAda "Ada" "preferredTrack" = some p → ct ≠ "" → p ≠ "" → ct = p) :=
  C1_course_inclusion gAda "Ada" adaRec (by decide)

/-! ### Claim C2 -/

/-- C2 (amended): with `maxCredits = m` set, the selected courses are
exactly the spec's greedy accept/skip walk over the score-ranked candidate
list, and when additionally `m ≥ 0` the credit sum of the selection stays
within the budget. -/
theorem C2_budget_greedy (g : Graph) (s : String) (m : Int)
    (hm : getIntProp g s "maxCredits" = some m) :
    ((recommend g s).courses.map (fun i => (i.course, i.matched_interests)) =
      (greedyRule m (rankedCandidates g s) 0).map
        (fun c => (c.course_label, c.matched_interests))) ∧
    (0 ≤ m →
      ((greedyRule m (rankedCandidates g s) 0).map (fun c => c.meta.credits)).sum ≤ m) := by
  constructor
  · have hc : (recommend g s).courses = budgetSelect (some m) (rankedCandidates g s) 0 := by
      show budgetSelect (getIntProp g s "maxCredits") (rankedCandidates g s) 0 = _
      rw [hm]
    rw [hc, budgetSelect_some_eq_greedy]
  · intro h0
    have := greedyRule_total_le m (rankedCandidates g s) 0 h0
    omega

/-- C2 witness: the amended budget statement at the Ada store. -/
theorem C2_budget_greedy_witness :
    ((recommend gAda "Ada").courses.map (fun i => (i.course, i.matched_interests)) =
      (greedyRule 6 (rankedCandidates gAda "Ada") 0).map
        (fun c => (c.course_label, c.matched_interests))) ∧
    (0 ≤ (6 : Int) →
      ((greedyRule 6 (rankedCandidates gAda "Ada") 0).map (fun c => c.meta.credits)).sum ≤ 6) :=
  C2_budget_greedy gAda "Ada" 6 (by decide)

/-- C2 counterexample: with `maxCredits = -1` nothing is selected, the
credit sum of the empty selection is 0, and 0 ≤ -1 fails — the claim's
unconditional budget bound is false for a negative budget. -/
theorem C2_budget_cex :
    getIntProp gNegBudget "sn" "maxCredits" = some (-1) ∧
    (recommend gNegBudget "sn").courses = [] ∧ ¬ ((0 : Int) ≤ -1) := by decide

/-! ### Claim C3 -/

/-- C3 (amended): in the Ada scenario with CS201 inserted before CS202,
the tie between the equal-scored candidates is kept in insertion order,
so the ranked order is [CS201, CS202], CS201 is selected with running
total 0 + 4 ≤ 6, and CS202 appears nowhere. -/
theorem C3_ada_scenario :
    (rankedCandidates gAda "Ada").map (fun c => c.course_label) = ["CS201", "CS202"] ∧
    (rankedCandidates gAda "Ada").map (fun c => c.score) =
      [(1, -999, -999), (1, -999, -999)] ∧
    (recommend gAda "Ada").courses.map (fun i => i.course) = ["CS201"] ∧
    "CS202" ∉ (recommend gAda "Ada").courses.map (fun i => i.course) ∧
    (recommend gAda "Ada").courses.map (fun i => i.explain.budget_line) =
      ["credits: course=4, current_total=0 + 4 ≤ max=6 => SELECTED"] := by decide

/-- C3 counterexample: the same scenario data with CS202 inserted first
yields ranked order [CS202, CS201] and the selection [CS202] — the code
breaks score ties by store insertion order, not by label, so the claimed
outcome "[CS201] only, CS202 nowhere" does not hold of the scenario as
such. -/
theorem C3_ada_scenario_cex :
    (rankedCandidates gAdaSwapped "Ada").map (fun c => c.course_label) =
      ["CS202", "CS201"] ∧
    (recommend gAdaSwapped "Ada").courses.map (fun i => i.course) = ["CS202"] ∧
    "CS202" ∈ (recommend gAdaSwapped "Ada").courses.map (fun i => i.course) ∧
    "CS201" ∉ (recommend gAdaSwapped "Ada").courses.map (fun i => i.course) := by decide

/-! ### Claim C4 -/

/-- C4 (amended): the ranked candidates are sorted descending by the tuple
(matched-interest count, −(difficulty or 999), −(semester or 999)), where
Python's `or 999` maps a missing — or zero — value to the sentinel 999. -/
theorem C4_ranking_descending (g : Graph) (s : String) :
    (rankedCandidates g s).Pairwise
      (fun a b => scoreLtB (rankKey a) (rankKey b) = false) := by
  have hasymm : ∀ a b : Candidate,
      (fun b a => scoreLtB b.score a.score) a b = true →
      (fun b a => scoreLtB b.score a.score) b a = false := by
    intro a b h
    exact scoreLtB_asymm _ _ h
  have htrans : ∀ a b c : Candidate,
      (fun b a => scoreLtB b.score a.score) a b = true →
      (fun b a => scoreLtB b.score a.score) b c = true →
      (fun b a => scoreLtB b.score a.score) a c = true := by
    intro a b c h1 h2
    exact scoreLtB_trans _ _ _ h1 h2
  have hpw := pairwise_pySort hasymm htrans (candidatesOf g s)
  refine List.Pairwise.imp_of_mem ?_ hpw
  intro a b ha hb hab
  have ha2 : a ∈ candidatesOf g s := (mem_pySort _ _ _).mp ha
  have hb2 : b ∈ candidatesOf g s := (mem_pySort _ _ _).mp hb
  show scoreLtB (rankKey a) (rankKey b) = false
  rw [← score_eq_rankKey_of_mem ha2, ← score_eq_rankKey_of_mem hb2]
  exact hab

/-- C4 counterexample: a known difficulty of 0 is treated as the sentinel
999 by `or 999`, so a difficulty-5 course outranks a difficulty-0 course
with the same matched-interest count — the ranked list violates the
claimed "−difficulty, missing worst" descending order. -/
theorem C4_ranking_cex :
    (rankedCandidates gDiffZero "stu").map (fun c => (c.course_label, c.meta.difficulty)) =
      [("B5", some 5), ("A0", some 0)] ∧
    (rankedCandidates gDiffZero "stu").map (fun c => c.matched_interests.length) = [1, 1] ∧
    ¬ (rankedCandidates gDiffZero "stu").Pairwise
      (fun a b => specRankLtB a b = false) := by decide

/-! ### Claim C5 -/

/-- C5 is violated: the interest-match path strings of a recommended
course are emitted in the set-iteration order of the matched skills with
no sort applied (app.py builds them from the raw `matched` set), so with
matched skills Zeta and Alpha encountered in that order the rendered list
is not ordered by skill label (the Alpha path sorts strictly before the
Zeta path). -/
theorem C5_interest_paths_unsorted :
    (recommend gTwoSkills "Stu").courses.map (fun i => i.explain.interest_paths) =
      [["Stu → hasInterest → Zeta ← teachesSkill ← C1",
        "Stu → hasInterest → Alpha ← teachesSkill ← C1"]] ∧
    strLtB "Stu → hasInterest → Alpha ← teachesSkill ← C1"
      "Stu → hasInterest → Zeta ← teachesSkill ← C1" = true ∧
    ¬ ((recommend gTwoSkills "Stu").courses.map (fun i => i.explain.interest_paths) =
      [["Stu → hasInterest → Alpha ← teachesSkill ← C1",
        "Stu → hasInterest → Zeta ← teachesSkill ← C1"]]) := by decide

/-! ### Claim C6 -/

/-- C6: `recommend` is deterministic — two evaluations against the same
store snapshot produce identical output. -/
theorem C6_determinism (g1 g2 : Graph) (s : String) (h : g1 = g2) :
    recommend g1 s = recommend g2 s := by rw [h]

/-- C6 witness: determinism instantiated at a concrete store. -/
theorem C6_determinism_witness : recommend gCareers "stu" = recommend gCareers "stu" :=
  C6_determinism gCareers gCareers "stu" rfl

/-! ### Claim C7 -/

theorem budgetSelect_none_annotate (l : List Candidate) (t : Int) :
    budgetSelect none l t = annotateBudget none l t := by
  induction l generalizing t with
  | nil => simp [budgetSelect, annotateBudget]
  | cons x xs ih =>
    simp only [budgetSelect, annotateBudget]
    rw [ih]

theorem budgetSelect_some_annotate (m : Int) (l : List Candidate) (t : Int) :
    ∃ sel, sel.Sublist l ∧ budgetSelect (some m) l t = annotateBudget (some m) sel t ∧
      greedyAcceptsFrom m sel t := by
  induction l generalizing t with
  | nil => exact ⟨[], List.Sublist.refl [], rfl, trivial⟩
  | cons x xs ih =>
    by_cases hc : t + x.meta.credits ≤ m
    · obtain ⟨sel, hsub, heq, hacc⟩ := ih (t + x.meta.credits)
      refine ⟨x :: sel, List.Sublist.cons₂ x hsub, ?_, hc, hacc⟩
      simp only [budgetSelect, if_pos hc, annotateBudget]
      rw [heq]
    · obtain ⟨sel, hsub, heq, hacc⟩ := ih t
      refine ⟨sel, List.Sublist.cons x hsub, ?_, hacc⟩
      simp only [budgetSelect, if_neg hc]
      exact heq

/-- C7: the returned course list is exactly the annotation of a sublist
of the ranked candidates in which every budget line is the final SELECTED
line rendering that course's own credits and the cumulative credit total
of the courses accepted before it, each acceptance satisfied the budget
check at that running total, and the tentative line written by
`_constraint_checks` never appears in any returned explanation. -/
theorem C7_budget_line_final (g : Graph) (s : String) :
    ∃ sel, sel.Sublist (rankedCandidates g s) ∧
      (recommend g s).courses = annotateBudget (getIntProp g s "maxCredits") sel 0 ∧
      (∀ m, getIntProp g s "maxCredits" = some m → greedyAcceptsFrom m sel 0) ∧
      (∀ item ∈ (recommend g s).courses, ∀ c t,
        item.explain.budget_line ≠ tentativeBudgetLine (getIntProp g s "maxCredits") c t) := by
  have hne : ∀ item ∈ (recommend g s).courses, ∀ c t,
      item.explain.budget_line ≠ tentativeBudgetLine (getIntProp g s "maxCredits") c t := by
    intro item h c t
    have hsel : item ∈ budgetSelect (getIntProp g s "maxCredits") (rankedCandidates g s) 0 := h
    rcases hmc : getIntProp g s "maxCredits" with _ | m
    · rw [hmc] at hsel
      obtain ⟨cand, hc2, tt, rfl⟩ := mem_budgetSelect_none hsel
      intro heq
      have heq2 : selectedLineNone cand.meta.credits tt = tentativeBudgetLine none c t := heq
      have h1 := lastChar_selectedLineNone cand.meta.credits tt
      rw [heq2, lastChar_tentativeNone] at h1
      exact absurd h1 (by decide)
    · rw [hmc] at hsel
      obtain ⟨cand, hc2, tt, rfl⟩ := mem_budgetSelect_some hsel
      intro heq
      have heq2 : selectedLineSome cand.meta.credits tt m =
          tentativeBudgetLine (some m) c t := heq
      have h1 := lastChar_selectedLineSome cand.meta.credits tt m
      rw [heq2, lastChar_tentativeSome] at h1
      exact absurd h1 (by decide)
  rcases hmc : getIntProp g s "maxCredits" with _ | m
  · rw [hmc] at hne
    refine ⟨rankedCandidates g s, List.Sublist.refl _, ?_, ?_, hne⟩
    · show budgetSelect (getIntProp g s "maxCredits") (rankedCandidates g s) 0 =
        annotateBudget none (rankedCandidates g s) 0
      rw [hmc, budgetSelect_none_annotate]
    · intro m hm
      exact Option.noConfusion hm
  · rw [hmc] at hne
    obtain ⟨sel, hsub, heq, hacc⟩ := budgetSelect_some_annotate m (rankedCandidates g s) 0
    refine ⟨sel, hsub, ?_, ?_, hne⟩
    · show budgetSelect (getIntProp g s "maxCredits") (rankedCandidates g s) 0 =
        annotateBudget (some m) sel 0
      rw [hmc, heq]
    · intro m2 hm2
      obtain rfl : m2 = m := by
        injection hm2 with h2
        exact h2.symm
      exact hacc

/-- C7 witness: the tied budget-line characterization at the Ada store. -/
theorem C7_budget_line_final_witness :
    ∃ sel, sel.Sublist (rankedCandidates gAda "Ada") ∧
      (recommend gAda "Ada").courses =
        annotateBudget (getIntProp gAda "Ada" "maxCredits") sel 0 ∧
      (∀ m, getIntProp gAda "Ada" "maxCredits" = some m → greedyAcceptsFrom m sel 0) ∧
      (∀ item ∈ (recommend gAda "Ada").courses, ∀ c t,
        item.explain.budget_line ≠
          tentativeBudgetLine (getIntProp gAda "Ada" "maxCredits") c t) :=
  C7_budget_line_final gAda "Ada"

/-! ### Claim C8 -/

/-- C8: a Career node contributes an entry to `recommend(S).careers` iff
its required skills intersect the union of the student's interests and
the skills taught by taken courses; every returned entry comes from such
a node. -/
theorem C8_career_match (g : Graph) (s : String) :
    (∀ e ∈ (recommend g s).careers, ∃ c ∈ subjectsOfType g "Career",
      e = careerEntry g (iriToLabel g s) (studentInterests g s) (studentTaken g s)
          (availableSkills g s) c ∧
      ∃ sk ∈ objects g c "requiresSkill",
        sk ∈ objects g s "hasInterest" ∨
          ∃ tc ∈ objects g s "takesCourse", sk ∈ objectsO g tc "teachesSkill") ∧
    (∀ c ∈ subjectsOfType g "Career",
      (∃ sk ∈ objects g c "requiresSkill",
        sk ∈ objects g s "hasInterest" ∨
          ∃ tc ∈ objects g s "takesCourse", sk ∈ objectsO g tc "teachesSkill") →
      careerEntry g (iriToLabel g s) (studentInterests g s) (studentTaken g s)
          (availableSkills g s) c ∈ (recommend g s).careers) := by
  constructor
  · intro e he
    have he2 : e ∈ recCareers g s := he
    rw [recCareers] at he2
    have he3 := (mem_pySort _ _ _).mp he2
    obtain ⟨c, hc, hfc⟩ := List.mem_filterMap.mp he3
    by_cases hnil :
        (objects g c "requiresSkill").filter (fun sk => sk ∈ availableSkills g s) = []
    · rw [if_pos hnil] at hfc
      exact absurd hfc (by simp)
    · rw [if_neg hnil] at hfc
      obtain ⟨sk, hsk⟩ := List.exists_mem_of_ne_nil _ hnil
      obtain ⟨hreq, hav⟩ := List.mem_filter.mp hsk
      simp only [decide_eq_true_eq] at hav
      exact ⟨c, hc, (Option.some.inj hfc).symm, sk, hreq, (mem_availableSkills g s sk).mp hav⟩
  · rintro c hc ⟨sk, hreq, hdisj⟩
    have hav : sk ∈ availableSkills g s := (mem_availableSkills g s sk).mpr hdisj
    have hsk : sk ∈ (objects g c "requiresSkill").filter
        (fun sk => sk ∈ availableSkills g s) :=
      List.mem_filter.mpr ⟨hreq, by simp [hav]⟩
    have hnil := List.ne_nil_of_mem hsk
    show careerEntry g (iriToLabel g s) (studentInterests g s) (studentTaken g s)
        (availableSkills g s) c ∈ recCareers g s
    rw [recCareers]
    refine (mem_pySort _ _ _).mpr (List.mem_filterMap.mpr ⟨c, hc, ?_⟩)
    rw [if_neg hnil]

/-- C8 witness: the membership direction applied at a concrete store. -/
theorem C8_career_match_witness :
    careerEntry gCareers (iriToLabel gCareers "stu") (studentInterests gCareers "stu")
      (studentTaken gCareers "stu") (availableSkills gCareers "stu") "DataSci"
      ∈ (recommend gCareers "stu").careers :=
  (C8_career_match gCareers "stu").2 "DataSci" (by decide)
    ⟨Obj.node "ML", by decide, Or.inl (by decide)⟩

/-! ### Claim C9 -/

/-- C9: a student id that occurs nowhere as a subject in the store (in
particular any unknown id) yields empty courses, careers, and papers —
the call returns normally with empty lists. -/
theorem C9_unknown_id (g : Graph) (s : String) (h : ∀ t ∈ g.triples, t.subj ≠ s) :
    recommend g s = { courses := [], careers := [], papers := [] } := by
  have hobj : ∀ p, objects g s p = [] := by
    intro p
    rw [objects]
    have hfil : g.triples.filter (fun t => t.subj = s ∧ t.pred = p) = [] := by
      rw [List.filter_eq_nil_iff]
      intro t ht
      simp [h t ht]
    rw [hfil]
    rfl
  have htaken : studentTaken g s = [] := hobj _
  have hint : studentInterests g s = [] := hobj _
  have hav : availableSkills g s = [] := by
    rw [availableSkills, htaken, hint]
    rfl
  have hcand : candidatesOf g s = [] := by
    rw [candidatesOf, htaken, hint, List.filterMap_eq_nil_iff]
    intro c hc
    simp [candidateOf, List.filter_eq_nil_iff]
  have hranked : rankedCandidates g s = [] := by
    rw [rankedCandidates, hcand]
    rfl
  have hcar : recCareers g s = [] := by
    rw [recCareers]
    have h2 : ((subjectsOfType g "Career").filterMap (fun car =>
        if ((objects g car "requiresSkill").filter
            (fun sk => sk ∈ availableSkills g s)) = [] then none
        else
          some (careerEntry g (iriToLabel g s) (studentInterests g s) (studentTaken g s)
            (availableSkills g s) car))) = [] := by
      rw [List.filterMap_eq_nil_iff]
      intro car hcar
      rw [hav]
      simp [List.filter_eq_nil_iff]
    rw [h2]
    rfl
  have hpap : recPapers g s = [] := by
    rw [recPapers]
    have h2 : ((subjectsOfType g "ResearchPaper").filterMap (fun p =>
        if ((objects g p "relatedTo").filter
            (fun sk => sk ∈ studentInterests g s)) = [] then none
        else some (paperEntry g (iriToLabel g s) (studentInterests g s) p))) = [] := by
      rw [List.filterMap_eq_nil_iff]
      intro p hp
      rw [hint]
      simp [List.filter_eq_nil_iff]
    rw [h2]
    rfl
  rw [recommend, hranked, hcar, hpap]
  rfl

/-- C9 witness: an id absent from a populated store gives the empty
result. -/
theorem C9_unknown_id_witness :
    recommend gKnown "ghost" = { courses := [], careers := [], papers := [] } :=
  C9_unknown_id gKnown "ghost" (by decide)

/-! ### Claim C10 -/

/-- C10 (amended): under a set budget `m ≥ 0`, a ranked candidate whose
`credits` value is missing or 0 is always selected when the greedy walk
reaches it — its SELECTED budget line records credits 0, and it cannot be
excluded by the budget. -/
theorem C10_zero_credit_selected (g : Graph) (s : String) (m : Int)
    (hm : getIntProp g s "maxCredits" = some m) (hpos : 0 ≤ m)
    (cand : Candidate) (hc : cand ∈ rankedCandidates g s)
    (hcred : getIntProp g cand.course_uri "credits" = none ∨
      getIntProp g cand.course_uri "credits" = some 0) :
    ∃ item ∈ (recommend g s).courses, item.course = cand.course_label ∧
      item.matched_interests = cand.matched_interests ∧
      ∃ t, item.explain.budget_line = selectedLineSome 0 t m := by
  have hmem : cand ∈ candidatesOf g s := (mem_pySort _ _ _).mp hc
  rw [candidatesOf] at hmem
  obtain ⟨c, hcs, hsome⟩ := List.mem_filterMap.mp hmem
  obtain ⟨_, _, _, _, hcandeq⟩ := candidateOf_eq_some hsome
  have huri : cand.course_uri = c := by rw [hcandeq]; rfl
  have hmeta : cand.meta = courseMeta g c := by rw [hcandeq]; rfl
  rw [huri] at hcred
  have h0 : cand.meta.credits = 0 := by
    rw [hmeta]
    show pyOrInt (getIntProp g c "credits") 0 = 0
    rcases hcred with h | h <;> rw [h] <;> simp [pyOrInt]
  obtain ⟨item, hi, h1, h2, tt, h3⟩ :=
    budgetSelect_zero_mem m (rankedCandidates g s) 0 hpos cand hc h0
  refine ⟨item, ?_, h1, h2, tt, h3⟩
  show item ∈ budgetSelect (getIntProp g s "maxCredits") (rankedCandidates g s) 0
  rw [hm]
  exact hi

/-- C10 witness: the credit-less candidate of `gZeroCred` is selected
under the budget 5. -/
theorem C10_zero_credit_selected_witness :
    ∃ item ∈ (recommend gZeroCred "s10").courses, item.course = zeroCand.course_label ∧
      item.matched_interests = zeroCand.matched_interests ∧
      ∃ t, item.explain.budget_line = selectedLineSome 0 t 5 :=
  C10_zero_credit_selected gZeroCred "s10" 5 (by decide) (by decide) zeroCand (by decide)
    (Or.inl (by decide))

/-- C10 counterexample: with `maxCredits = -1` the single credit-less
candidate is reached and skipped (0 + 0 ≤ -1 fails), so a course without
credits can be excluded by the credit budget — the claim's unconditional
"can never be excluded" is false. -/
theorem C10_zero_credit_cex :
    getIntProp gNegZero "zc" "credits" = none ∧
    (rankedCandidates gNegZero "zs").map (fun c => c.course_label) = ["zc"] ∧
    getIntProp gNegZero "zs" "maxCredits" = some (-1) ∧
    (recommend gNegZero "zs").courses = [] := by decide

end S2A
